import Mathlib

/-!
# Verification of the bch-mcp session/transport layer and serialization helpers

Shallow embedding of the request-routing, session-lifecycle and
serialization logic of the bch-mcp repository (`src/server.ts`,
`src/index.ts`), together with proofs of the behavioural properties the
design document states about them.

JavaScript `Map`s over string keys are modelled as association lists,
`bigint` values as `Int`, and the HTTP exchange as explicit
request/response values.  Each dispatcher instance (an `McpServer`
together with its `StreamableHTTPServerTransport`) is identified by the
counter value at its creation.
-/

namespace BchMcp

/-! ## Decimal strings

`src/index.ts` serializes every `bigint` with JavaScript's
`value.toString()`, i.e. its decimal representation.  We model that
representation with a fuel-based digit expansion (structurally
recursive, hence kernel-computable) and give the matching decimal
parser, so that the round-trip law of the spec can be stated and
proved. -/

/-- Little-endian base-10 digits of `n`, with explicit fuel (the fuel is
always instantiated with `n` itself, which is enough since `n / 10 < n`
for `n ≠ 0`).  Models the digit expansion performed by JavaScript's
`BigInt.prototype.toString`. -/
def decDigitsAux : Nat → Nat → List Nat
  | _, 0 => []
  | 0, _ + 1 => []
  | fuel + 1, n + 1 => (n + 1) % 10 :: decDigitsAux fuel ((n + 1) / 10)

/-- Little-endian base-10 digits of `n` (empty for `n = 0`). -/
def decDigits (n : Nat) : List Nat := decDigitsAux n n

/-- Value of a little-endian base-10 digit list. -/
def ofDecDigits : List Nat → Nat
  | [] => 0
  | d :: ds => d + 10 * ofDecDigits ds

theorem decDigitsAux_sound : ∀ (fuel n : Nat), n ≤ fuel →
    ofDecDigits (decDigitsAux fuel n) = n := by
  intro fuel
  induction fuel with
  | zero =>
    intro n hn
    interval_cases n
    rfl
  | succ f ih =>
    intro n hn
    match n with
    | 0 => rfl
    | m + 1 =>
      have hdiv : (m + 1) / 10 ≤ f := by
        have h1 : (m + 1) / 10 < m + 1 := Nat.div_lt_self (Nat.succ_pos m) (by norm_num)
        omega
      simp only [decDigitsAux, ofDecDigits, ih _ hdiv]
      omega

theorem ofDecDigits_decDigits (n : Nat) : ofDecDigits (decDigits n) = n :=
  decDigitsAux_sound n n le_rfl

theorem decDigitsAux_lt : ∀ (fuel n : Nat), ∀ d ∈ decDigitsAux fuel n, d < 10 := by
  intro fuel
  induction fuel with
  | zero =>
    intro n d hd
    match n with
    | 0 => simp [decDigitsAux] at hd
    | _ + 1 => simp [decDigitsAux] at hd
  | succ f ih =>
    intro n d hd
    match n with
    | 0 => simp [decDigitsAux] at hd
    | m + 1 =>
      simp only [decDigitsAux, List.mem_cons] at hd
      rcases hd with h | h
      · omega
      · exact ih _ _ h

theorem decDigits_lt (n : Nat) : ∀ d ∈ decDigits n, d < 10 :=
  decDigitsAux_lt n n

/-- The character for one decimal digit. -/
def digitChar (d : Nat) : Char :=
  match d with
  | 0 => '0' | 1 => '1' | 2 => '2' | 3 => '3' | 4 => '4'
  | 5 => '5' | 6 => '6' | 7 => '7' | 8 => '8' | 9 => '9'
  | _ => '?'

/-- The numeric value of one decimal-digit character. -/
def charDigit (c : Char) : Nat :=
  match c with
  | '0' => 0 | '1' => 1 | '2' => 2 | '3' => 3 | '4' => 4
  | '5' => 5 | '6' => 6 | '7' => 7 | '8' => 8 | '9' => 9
  | _ => 10

/-- Whether a character is a decimal digit. -/
def isDecDigitChar (c : Char) : Bool := charDigit c < 10

theorem charDigit_digitChar {d : Nat} (hd : d < 10) : charDigit (digitChar d) = d := by
  interval_cases d <;> rfl

theorem isDecDigitChar_digitChar {d : Nat} (hd : d < 10) :
    isDecDigitChar (digitChar d) = true := by
  interval_cases d <;> rfl

theorem digitChar_ne_minus {d : Nat} (hd : d < 10) : digitChar d ≠ '-' := by
  interval_cases d <;> decide

/-- Decimal string of a natural number, as produced by JavaScript's
`toString` (big-endian, `"0"` for zero). -/
def natToDecString (n : Nat) : String :=
  if n = 0 then "0" else String.mk ((decDigits n).reverse.map digitChar)

/-- Decimal string of a `bigint`, as produced by JavaScript's
`BigInt.prototype.toString`. -/
def intToDecString (i : Int) : String :=
  if i < 0 then "-" ++ natToDecString i.natAbs else natToDecString i.toNat

/-- Parse a decimal string of digits back into a natural number
(re-parsing step of the spec's round-trip law). -/
def parseNatDec (s : String) : Option Nat :=
  if s.data ≠ [] ∧ s.data.all isDecDigitChar then
    some (s.data.foldl (fun a c => a * 10 + charDigit c) 0)
  else none

/-- Parse a decimal string (with optional leading minus sign) back into
an integer. -/
def parseIntDec (s : String) : Option Int :=
  if s.data.head? = some '-' then
    (parseNatDec (String.mk s.data.tail)).map (fun n => -(n : Int))
  else
    (parseNatDec s).map (fun n => (n : Int))

theorem foldl_reverse_ofDecDigits : ∀ (ds : List Nat) (a : Nat),
    List.foldl (fun acc d => acc * 10 + d) a ds.reverse =
      a * 10 ^ ds.length + ofDecDigits ds := by
  intro ds
  induction ds with
  | nil => intro a; simp [ofDecDigits]
  | cons d t ih =>
    intro a
    simp only [List.reverse_cons, List.foldl_append, List.foldl_cons, List.foldl_nil, ih,
      List.length_cons, ofDecDigits]
    ring

theorem foldl_map_digitChar : ∀ (l : List Nat), (∀ d ∈ l, d < 10) → ∀ (a : Nat),
    List.foldl (fun acc c => acc * 10 + charDigit c) a (l.map digitChar) =
      List.foldl (fun acc d => acc * 10 + d) a l := by
  intro l
  induction l with
  | nil => intro _ a; rfl
  | cons d t ih =>
    intro h a
    simp only [List.map_cons, List.foldl_cons]
    rw [charDigit_digitChar (h d (List.mem_cons_self d t))]
    exact ih (fun x hx => h x (List.mem_cons_of_mem d hx)) _

theorem parseNatDec_mk (l : List Char) (hne : l ≠ []) (hall : l.all isDecDigitChar = true) :
    parseNatDec (String.mk l) = some (l.foldl (fun a c => a * 10 + charDigit c) 0) := by
  have hdata : (String.mk l).data = l := rfl
  unfold parseNatDec
  rw [hdata, if_pos ⟨hne, hall⟩]

theorem natToDecString_data (n : Nat) (h0 : n ≠ 0) :
    (natToDecString n).data = (decDigits n).reverse.map digitChar := by
  unfold natToDecString
  rw [if_neg h0]

theorem decDigits_ne_nil (n : Nat) (h0 : n ≠ 0) : decDigits n ≠ [] := by
  intro hnil
  have h2 := ofDecDigits_decDigits n
  rw [hnil] at h2
  exact h0 h2.symm

theorem parseNatDec_natToDecString (n : Nat) :
    parseNatDec (natToDecString n) = some n := by
  by_cases h0 : n = 0
  · subst h0; decide
  · have hlt : ∀ d ∈ (decDigits n).reverse, d < 10 :=
      fun d hd => decDigits_lt n d (List.mem_reverse.mp hd)
    have hne : (decDigits n).reverse.map digitChar ≠ [] := by
      simp [decDigits_ne_nil n h0]
    have hall : ((decDigits n).reverse.map digitChar).all isDecDigitChar = true := by
      rw [List.all_eq_true]
      intro c hc
      rcases List.mem_map.mp hc with ⟨d, hd, rfl⟩
      exact isDecDigitChar_digitChar (hlt d hd)
    have hmk : natToDecString n = String.mk ((decDigits n).reverse.map digitChar) := by
      unfold natToDecString
      rw [if_neg h0]
    rw [hmk, parseNatDec_mk _ hne hall]
    congr 1
    rw [foldl_map_digitChar _ hlt, foldl_reverse_ofDecDigits, ofDecDigits_decDigits]
    simp

theorem parseIntDec_intToDecString (i : Int) :
    parseIntDec (intToDecString i) = some i := by
  by_cases hneg : i < 0
  · have hdata : ("-" ++ natToDecString i.natAbs).data
        = '-' :: (natToDecString i.natAbs).data := rfl
    unfold intToDecString
    rw [if_pos hneg]
    unfold parseIntDec
    rw [hdata]
    simp only [List.head?_cons, List.tail_cons, if_pos rfl]
    have hmk : String.mk (natToDecString i.natAbs).data = natToDecString i.natAbs := rfl
    rw [hmk, parseNatDec_natToDecString]
    exact congrArg some (show -((i.natAbs : Nat) : Int) = i by omega)
  · have hhead : ¬ (natToDecString i.toNat).data.head? = some '-' := by
      cases hd : (natToDecString i.toNat).data with
      | nil => simp
      | cons c rest =>
        simp only [List.head?_cons, Option.some.injEq]
        intro hcontra
        subst hcontra
        by_cases h0 : i.toNat = 0
        · unfold natToDecString at hd
          rw [if_pos h0] at hd
          have : ('0' : Char) = '-' := by
            have h00 : ("0" : String).data = ['0'] := rfl
            rw [h00] at hd
            exact (List.cons.injEq _ _ _ _ ▸ hd).1
          exact absurd this (by decide)
        · rw [natToDecString_data _ h0] at hd
          have hc : '-' ∈ (decDigits i.toNat).reverse.map digitChar := by
            rw [hd]; exact List.mem_cons_self _ _
          rcases List.mem_map.mp hc with ⟨d, hdm, hdc⟩
          exact digitChar_ne_minus (decDigits_lt _ d (List.mem_reverse.mp hdm)) hdc
    unfold intToDecString
    rw [if_neg hneg]
    unfold parseIntDec
    rw [if_neg hhead, parseNatDec_natToDecString]
    exact congrArg some (show ((i.toNat : Nat) : Int) = i by omega)

/-! ## Handler result values and `serialize`

A handler return value is a JSON-like tree that may additionally
contain `bigint` leaves (`jbig`).  `serialize` (src/index.ts:19-24) is
`JSON.parse(JSON.stringify(obj, replacer))` with a replacer that turns
every `bigint` into its decimal string: a structural map that rewrites
exactly the `bigint` leaves and leaves everything else (including the
order of array elements and object fields) unchanged. -/

/-- JSON-like handler result values; `jbig` is a JavaScript `bigint`
leaf, `jnum` a native number. -/
inductive JValue where
  | jnull
  | jbool (b : Bool)
  | jnum (n : Int)
  | jstr (s : String)
  | jbig (n : Int)
  | jarr (xs : List JValue)
  | jobj (fields : List (String × JValue))

mutual

/-- Embedding of `serialize` (src/index.ts:19-24): recursively replaces
every `bigint` with its decimal string and keeps all other values and
all orderings unchanged. -/
def serialize : JValue → JValue
  | .jnull => .jnull
  | .jbool b => .jbool b
  | .jnum n => .jnum n
  | .jstr s => .jstr s
  | .jbig n => .jstr (intToDecString n)
  | .jarr xs => .jarr (serializeList xs)
  | .jobj fs => .jobj (serializeFields fs)

/-- `serialize` mapped over the elements of a JSON array. -/
def serializeList : List JValue → List JValue
  | [] => []
  | x :: t => serialize x :: serializeList t

/-- `serialize` mapped over the values of a JSON object. -/
def serializeFields : List (String × JValue) → List (String × JValue)
  | [] => []
  | (k, v) :: t => (k, serialize v) :: serializeFields t

end

theorem serializeList_eq_map : ∀ (xs : List JValue), serializeList xs = xs.map serialize := by
  intro xs
  induction xs with
  | nil => rfl
  | cons x t ih => simp only [serializeList, List.map_cons, ih]

theorem serializeFields_eq_map : ∀ (fs : List (String × JValue)),
    serializeFields fs = fs.map (fun kv => (kv.1, serialize kv.2)) := by
  intro fs
  induction fs with
  | nil => rfl
  | cons kv t ih =>
    match kv with
    | (k, v) => simp only [serializeFields, List.map_cons, ih]

/-- One step into a nested JSON value: an object field or an array index. -/
inductive PathElem where
  | field (k : String)
  | idx (i : Nat)

/-- First binding of key `k` in a JSON object's field list. -/
def lookupField : List (String × JValue) → String → Option JValue
  | [], _ => none
  | (k', v) :: t, k => if k' = k then some v else lookupField t k

/-- The sub-value of a JSON value at a path (object keys and array
indices), `none` when the path does not exist. -/
def getPath : JValue → List PathElem → Option JValue
  | v, [] => some v
  | .jarr xs, .idx i :: p =>
    match xs.get? i with
    | some x => getPath x p
    | none => none
  | .jobj fs, .field k :: p =>
    match lookupField fs k with
    | some x => getPath x p
    | none => none
  | _, _ :: _ => none

theorem lookupField_serializeFields (fs : List (String × JValue)) (k : String) :
    lookupField (serializeFields fs) k = (lookupField fs k).map serialize := by
  induction fs with
  | nil => rfl
  | cons kv t ih =>
    match kv with
    | (k', v) =>
      simp only [serializeFields, lookupField]
      by_cases h : k' = k
      · rw [if_pos h, if_pos h]; rfl
      · rw [if_neg h, if_neg h, ih]

theorem get?_serializeList (xs : List JValue) (i : Nat) :
    (serializeList xs).get? i = (xs.get? i).map serialize := by
  rw [serializeList_eq_map, List.get?_eq_getElem?, List.get?_eq_getElem?, List.getElem?_map]

theorem getPath_nil (v : JValue) : getPath v [] = some v := by
  cases v <;> rfl

/-- Core structural lemma: descending into a serialized value equals
serializing the sub-value at the same path. -/
theorem getPath_serialize : ∀ (p : List PathElem) (v : JValue),
    getPath (serialize v) p = (getPath v p).map serialize := by
  intro p
  induction p with
  | nil => intro v; rw [getPath_nil, getPath_nil]; rfl
  | cons pe p ih =>
    intro v
    match pe, v with
    | .idx i, .jarr xs =>
      simp only [serialize, getPath, get?_serializeList]
      cases h : xs.get? i with
      | none => simp
      | some x => simp only [Option.map_some]; exact ih x
    | .idx i, .jnull => rfl
    | .idx i, .jbool b => rfl
    | .idx i, .jnum n => rfl
    | .idx i, .jstr s => rfl
    | .idx i, .jbig n => rfl
    | .idx i, .jobj fs => rfl
    | .field k, .jobj fs =>
      simp only [serialize, getPath, lookupField_serializeFields]
      cases h : lookupField fs k with
      | none => simp
      | some x => simp only [Option.map_some]; exact ih x
    | .field k, .jnull => rfl
    | .field k, .jbool b => rfl
    | .field k, .jnum n => rfl
    | .field k, .jstr s => rfl
    | .field k, .jbig n => rfl
    | .field k, .jarr xs => rfl

/-- Whether a value is a non-`bigint` leaf (kept verbatim by `serialize`). -/
def isPlainLeaf : JValue → Bool
  | .jnull => true
  | .jbool _ => true
  | .jnum _ => true
  | .jstr _ => true
  | _ => false

theorem serialize_ne_jbig (v : JValue) (m : Int) : serialize v ≠ .jbig m := by
  cases v <;> simp [serialize]

theorem serialize_plainLeaf {v : JValue} (h : isPlainLeaf v = true) : serialize v = v := by
  cases v <;> first | rfl | simp [isPlainLeaf] at h

/-! ## The HTTP session layer (`src/server.ts`)

The `sessions` map (src/server.ts:10) stores, per opaque session token,
the `{ transport, server }` pair created for it.  We identify each
`McpServer` / `StreamableHTTPServerTransport` instance by the value of
a creation counter (`nextInstance`), so that "same dispatcher
instance" is expressible.  Note that the stored record carries no
creation or last-access time — the source stores only the two object
references. -/

/-- One entry of the `sessions` map (src/server.ts:10): the transport
and server instances bound to a token, identified by creation number. -/
structure SessionRec where
  transport : Nat
  server : Nat
deriving DecidableEq, Repr

/-- JavaScript `Map.set` on an association list: replaces in place when
the key exists, appends otherwise. -/
def setAssoc : List (String × SessionRec) → String → SessionRec → List (String × SessionRec)
  | [], k, v => [(k, v)]
  | (k', v') :: t, k, v => if k' = k then (k, v) :: t else (k', v') :: setAssoc t k v

/-- JavaScript `Map.get` on an association list. -/
def lookupAssoc : List (String × SessionRec) → String → Option SessionRec
  | [], _ => none
  | (k', v') :: t, k => if k' = k then some v' else lookupAssoc t k

/-- JavaScript `Map.delete` on an association list. -/
def eraseAssoc : List (String × SessionRec) → String → List (String × SessionRec)
  | [], _ => []
  | (k', v') :: t, k => if k' = k then t else (k', v') :: eraseAssoc t k

/-- The mutable state of `src/server.ts`: the `sessions` map plus the
instance counter used to identify freshly constructed dispatcher
pairs. -/
structure ServerState where
  sessions : List (String × SessionRec)
  nextInstance : Nat
deriving DecidableEq, Repr

/-- Decoded JSON body of a POST /mcp request (only the parts the
routing logic reads: `method` and `id`). -/
structure ReqBody where
  method : Option String
  id : Option Int
deriving DecidableEq, Repr

/-- A POST /mcp request: the `mcp-session-id` header and the result of
`JSON.parse` on the body (`none` models a parse failure). -/
structure PostRequest where
  sessionHeader : Option String
  body : Option ReqBody
deriving DecidableEq, Repr

/-- The JSON body of a directly written response: a JSON-RPC error
object (`jsonrpc` is always `"2.0"` in the source) or the DELETE
acknowledgement `{"status":"ok"}`. -/
inductive RespBody where
  | rpcError (code : Int) (message : String) (id : Option Int)
  | statusOk
deriving DecidableEq, Repr

/-- The outcome of one request exchange: either a JSON response written
directly by `src/server.ts`, or delegation to a transport instance via
`transport.handleRequest` (carrying the session id forwarded to the
fresh transport on the initialize path, `none` otherwise). -/
inductive HttpResponse where
  | json (status : Nat) (body : RespBody)
  | delegated (transport : Nat) (mintedSessionId : Option String)
deriving DecidableEq, Repr

/-- JavaScript truthiness of `jsonBody.id || null` for an integer id:
`0` is falsy and becomes `null`. -/
def jsTruthyId : Option Int → Option Int
  | some n => if n = 0 then none else some n
  | none => none

/-- The parse-error response (src/server.ts:79-80). -/
def parseErrorResponse : HttpResponse :=
  .json 400 (.rpcError (-32700) "Parse error" none)

/-- The session-not-found message (src/server.ts:145). -/
def sessionNotFoundMessage : String :=
  "Invalid Request: Session not found. Send initialize request first."

/-- The session-not-found response (src/server.ts:142-147). -/
def sessionNotFoundResponse (id : Option Int) : HttpResponse :=
  .json 400 (.rpcError (-32600) sessionNotFoundMessage (jsTruthyId id))

/-- Embedding of the POST /mcp handler (src/server.ts:63-149).
`freshId` is the value returned by `crypto.randomUUID()` on this
request; `now` is the current wall-clock time, threaded to make
time-(in)dependence expressible — the source never reads a clock on
this path, so the embedding never uses it.  Returns the new server
state and the response. -/
def handlePost (st : ServerState) (req : PostRequest) (freshId : String) (now : Nat) :
    ServerState × HttpResponse :=
  match req.body with
  | none => (st, parseErrorResponse)
  | some b =>
    if b.method = some "initialize" then
      let r : SessionRec := ⟨st.nextInstance, st.nextInstance⟩
      ({ sessions := setAssoc st.sessions freshId r, nextInstance := st.nextInstance + 1 },
       .delegated r.transport (some freshId))
    else
      match req.sessionHeader with
      | some sid =>
        if sid = "" then (st, sessionNotFoundResponse b.id)
        else
          match lookupAssoc st.sessions sid with
          | some s => (st, .delegated s.transport none)
          | none => (st, sessionNotFoundResponse b.id)
      | none => (st, sessionNotFoundResponse b.id)

/-- The DELETE acknowledgement `{"status":"ok"}` with HTTP 200
(src/server.ts:160-161). -/
def okResponse : HttpResponse := .json 200 .statusOk

/-- Embedding of the DELETE /mcp handler (src/server.ts:152-163).  The
third component records which server instance had `close()` awaited on
it (`none` when no session was found). -/
def handleDelete (st : ServerState) (sessionHeader : Option String) :
    ServerState × HttpResponse × Option Nat :=
  match sessionHeader with
  | some sid =>
    if sid = "" then (st, okResponse, none)
    else
      match lookupAssoc st.sessions sid with
      | some s => ({ st with sessions := eraseAssoc st.sessions sid }, okResponse, some s.server)
      | none => (st, okResponse, none)
  | none => (st, okResponse, none)

/-- Embedding of the periodic `setInterval` callback
(src/server.ts:216-219): its body only logs `sessions.size`; it
performs no mutation of the session table. -/
def sweepTick (st : ServerState) : ServerState := st

/-- The operations of the server that can touch the session table. -/
inductive ServerOp where
  | post (req : PostRequest) (freshId : String) (now : Nat)
  | teardown (sessionHeader : Option String)
  | sweep

/-- State transition of one server operation. -/
def applyOp (st : ServerState) : ServerOp → ServerState
  | .post req freshId now => (handlePost st req freshId now).1
  | .teardown h => (handleDelete st h).1
  | .sweep => sweepTick st

/-- Freshness of the minted token of an operation: `crypto.randomUUID()`
does not collide with an existing key (and is never the empty string). -/
def freshFor (st : ServerState) : ServerOp → Prop
  | .post _ freshId _ => lookupAssoc st.sessions freshId = none
  | .teardown _ => True
  | .sweep => True

theorem lookupAssoc_setAssoc_ne (m : List (String × SessionRec)) (k k' : String)
    (v : SessionRec) (h : k' ≠ k) :
    lookupAssoc (setAssoc m k v) k' = lookupAssoc m k' := by
  induction m with
  | nil =>
    simp only [setAssoc, lookupAssoc]
    rw [if_neg (fun he => h he.symm)]
  | cons kv t ih =>
    match kv with
    | (k0, v0) =>
      simp only [setAssoc]
      by_cases h0 : k0 = k
      · subst h0
        rw [if_pos rfl]
        simp only [lookupAssoc]
        rw [if_neg (fun he => h he.symm), if_neg (fun he => h he.symm)]
      · rw [if_neg h0]
        simp only [lookupAssoc]
        by_cases h1 : k0 = k'
        · rw [if_pos h1, if_pos h1]
        · rw [if_neg h1, if_neg h1, ih]

theorem lookupAssoc_setAssoc_self (m : List (String × SessionRec)) (k : String)
    (v : SessionRec) : lookupAssoc (setAssoc m k v) k = some v := by
  induction m with
  | nil => simp [setAssoc, lookupAssoc]
  | cons kv t ih =>
    match kv with
    | (k0, v0) =>
      simp only [setAssoc]
      by_cases h0 : k0 = k
      · rw [if_pos h0]
        simp [lookupAssoc]
      · rw [if_neg h0]
        simp only [lookupAssoc]
        rw [if_neg h0, ih]

theorem lookupAssoc_eraseAssoc_ne (m : List (String × SessionRec)) (k k' : String)
    (h : k' ≠ k) : lookupAssoc (eraseAssoc m k) k' = lookupAssoc m k' := by
  induction m with
  | nil => rfl
  | cons kv t ih =>
    match kv with
    | (k0, v0) =>
      simp only [eraseAssoc]
      by_cases h0 : k0 = k
      · subst h0
        rw [if_pos rfl]
        simp only [lookupAssoc]
        rw [if_neg (fun he => h he.symm)]
      · rw [if_neg h0]
        simp only [lookupAssoc]
        by_cases h1 : k0 = k'
        · rw [if_pos h1, if_pos h1]
        · rw [if_neg h1, if_neg h1, ih]

/-- A session table's keys are pairwise distinct (always true of the
model of a JavaScript `Map`, whose keys are unique by construction). -/
def keysNodup (m : List (String × SessionRec)) : Prop :=
  (m.map Prod.fst).Nodup

instance (m : List (String × SessionRec)) : Decidable (keysNodup m) := by
  unfold keysNodup
  infer_instance

theorem lookupAssoc_eq_none_of_not_mem (m : List (String × SessionRec)) (k : String)
    (h : k ∉ m.map Prod.fst) : lookupAssoc m k = none := by
  induction m with
  | nil => rfl
  | cons kv t ih =>
    match kv with
    | (k0, v0) =>
      simp only [List.map_cons, List.mem_cons, not_or] at h
      simp only [lookupAssoc]
      rw [if_neg (fun he => h.1 he.symm)]
      exact ih h.2

theorem lookupAssoc_eraseAssoc_self (m : List (String × SessionRec)) (k : String)
    (hnd : keysNodup m) : lookupAssoc (eraseAssoc m k) k = none := by
  induction m with
  | nil => rfl
  | cons kv t ih =>
    match kv with
    | (k0, v0) =>
      have hnd' : keysNodup t := (List.nodup_cons.mp hnd).2
      have hk0 : k0 ∉ t.map Prod.fst := (List.nodup_cons.mp hnd).1
      simp only [eraseAssoc]
      by_cases h0 : k0 = k
      · subst h0
        rw [if_pos rfl]
        exact lookupAssoc_eq_none_of_not_mem t k0 hk0
      · rw [if_neg h0]
        simp only [lookupAssoc]
        rw [if_neg h0]
        exact ih hnd'

/-! ## Dispatcher error taxonomy

The structured errors produced inside a session's dispatcher (argument
validation, unknown tool) are generated by the MCP SDK, which is not
part of this repository's sources; only their JSON-RPC codes are
needed here, to state that the session-not-found response is
distinguishable from them. -/

/-- Modelled from the spec: the dispatcher's structured
"invalid arguments" error (produced by the MCP SDK from the zod
schema, not under src/) carries the JSON-RPC invalid-params code. -/
def invalidArgumentsCode : Int := -32602

/-- Modelled from the spec: the dispatcher's structured
"unknown operation" error (produced by the MCP SDK, not under src/)
carries the JSON-RPC method-not-found code. -/
def unknownOperationCode : Int := -32601

/-! ## `get_balance` argument validation (`src/index.ts:1576-1600`)

The tool's input schema is declared in the source
(`walletId: z.string()`, `unit: z.enum(["bch","sat","usd"]).default("bch")`);
the validation engine that applies such a schema before the handler
runs lives in the zod / MCP SDK libraries, so its semantics (reject
wrong types and out-of-enum values with an error naming the field,
apply declared defaults, only then invoke the handler) is modelled
from the spec. -/

/-- A JSON argument value as received in a tool call. -/
inductive ArgValue where
  | str (s : String)
  | num (n : Int)
  | boolean (b : Bool)
deriving DecidableEq, Repr

/-- The argument bag of one tool call. -/
def ArgBag := List (String × ArgValue)

/-- First binding of an argument name. -/
def lookupArg : List (String × ArgValue) → String → Option ArgValue
  | [], _ => none
  | (k', v) :: t, k => if k' = k then some v else lookupArg t k

/-- A structured validation failure naming the offending field. -/
structure ValidationError where
  offendingField : String
deriving DecidableEq, Repr

/-- The validated, defaulted arguments of `get_balance`. -/
structure GetBalanceArgs where
  walletId : String
  unit : String
deriving DecidableEq, Repr

/-- The declared enum of the `unit` argument (src/index.ts:1583). -/
def balanceUnits : List String := ["bch", "sat", "usd"]

/-- Modelled from the spec: validation of a `get_balance` call against
the input schema declared at src/index.ts:1581-1584 — `walletId` must
be a string, `unit` must be one of `balanceUnits` and defaults to
`"bch"`; a violation is a structured error naming the field. -/
def validateGetBalance (args : List (String × ArgValue)) :
    Except ValidationError GetBalanceArgs :=
  match lookupArg args "walletId" with
  | some (.str w) =>
    match lookupArg args "unit" with
    | none => .ok ⟨w, "bch"⟩
    | some (.str u) => if u ∈ balanceUnits then .ok ⟨w, u⟩ else .error ⟨"unit"⟩
    | some _ => .error ⟨"unit"⟩
  | _ => .error ⟨"walletId"⟩

/-- Outcome of dispatching one `get_balance` call: either a structured
invalid-arguments error, or invocation of the wallet handler with the
validated arguments. -/
inductive GetBalanceDispatch where
  | invalidArgs (offendingField : String)
  | handlerInvoked (args : GetBalanceArgs)
deriving DecidableEq, Repr

/-- Modelled from the spec: the dispatcher validates the arguments
first and invokes the handler only on success. -/
def dispatchGetBalance (args : List (String × ArgValue)) : GetBalanceDispatch :=
  match validateGetBalance args with
  | .error e => .invalidArgs e.offendingField
  | .ok a => .handlerInvoked a

/-! ## `escrow_create` (`src/index.ts:2104-2133`) -/

/-- The inputs of one escrow contract: three party addresses and the
amount (the handler converts the decimal `amount` string with
`BigInt`). -/
structure EscrowDescriptor where
  arbiterAddr : String
  buyerAddr : String
  sellerAddr : String
  amount : Int
deriving DecidableEq, Repr

/-- Modelled from the spec: the external escrow-contract library's
deposit-address and contract-ID derivation, a deterministic function
of the descriptor (spec §6: "deterministic address/contract-ID
derivation from given inputs"). -/
def escrowDerive (d : EscrowDescriptor) : String × String :=
  ("bchtest:escrow-" ++ d.arbiterAddr ++ "-" ++ d.buyerAddr ++ "-" ++ d.sellerAddr
      ++ "-" ++ intToDecString d.amount,
   "escrowContract:testnet:" ++ d.arbiterAddr ++ ":" ++ d.buyerAddr ++ ":"
      ++ d.sellerAddr ++ ":" ++ intToDecString d.amount)

/-- The success payload of `escrow_create` (src/index.ts:2126-2129). -/
structure EscrowCreateResult where
  address : String
  contractId : String
deriving DecidableEq, Repr

/-- Ambient per-call context a handler could in principle read
(wall-clock time and randomness); threaded to express that
`escrow_create` depends on neither. -/
structure CallWorld where
  time : Nat
  rng : Nat
deriving DecidableEq, Repr

/-- Embedding of the `escrow_create` handler (src/index.ts:2117-2132):
converts `amount` with `BigInt` (an exception for a non-numeric string
becomes `Except.error`), builds the contract and returns its deposit
address and contract ID. -/
def escrowCreateHandler (arbiterAddr buyerAddr sellerAddr amount : String)
    (w : CallWorld) : Except String EscrowCreateResult :=
  match parseIntDec amount with
  | some amt =>
    let d : EscrowDescriptor := ⟨arbiterAddr, buyerAddr, sellerAddr, amt⟩
    .ok ⟨(escrowDerive d).1, (escrowDerive d).2⟩
  | none => .error "Cannot convert to a BigInt"

/-! ## `validate_address` (`src/index.ts:2629-2665`) -/

/-- What the delegated `TestNetWallet.watchOnly` call yields on
success. -/
structure WalletInfo where
  cashaddr : String
  tokenaddr : String
  network : String
deriving DecidableEq, Repr

/-- The JSON body returned by `validate_address`: a normal result
envelope in both branches. -/
inductive ValidateAddressBody where
  | valid (cashaddr tokenaddr network : String)
  | invalid (errorMessage : String)
deriving DecidableEq, Repr

/-- Embedding of the `validate_address` handler
(src/index.ts:2638-2664): the delegated `TestNetWallet.watchOnly` call
is represented by its outcome (`ok` wallet, or `error` with the thrown
message); the `try`/`catch` of the source becomes the two match arms,
and both produce a normal result body. -/
def validateAddressHandler (libOutcome : Except String WalletInfo) : ValidateAddressBody :=
  match libOutcome with
  | .ok w => .valid w.cashaddr w.tokenaddr w.network
  | .error e => .invalid e

/-! ## Claim theorems -/

theorem length_setAssoc_of_lookup_none (m : List (String × SessionRec)) (k : String)
    (v : SessionRec) (h : lookupAssoc m k = none) :
    (setAssoc m k v).length = m.length + 1 := by
  induction m with
  | nil => rfl
  | cons kv t ih =>
    match kv with
    | (k0, v0) =>
      simp only [lookupAssoc] at h
      by_cases h0 : k0 = k
      · rw [if_pos h0] at h
        exact nomatch h
      · rw [if_neg h0] at h
        simp only [setAssoc]
        rw [if_neg h0]
        simp only [List.length_cons, ih h]

theorem handlePost_state_cases (st : ServerState) (hdr : Option String)
    (body : Option ReqBody) (freshId : String) (now : Nat) :
    (handlePost st ⟨hdr, body⟩ freshId now).1 = st ∨
    (handlePost st ⟨hdr, body⟩ freshId now).1.sessions
        = setAssoc st.sessions freshId ⟨st.nextInstance, st.nextInstance⟩ := by
  cases body with
  | none => exact .inl rfl
  | some b =>
    by_cases hm : b.method = some "initialize"
    · refine .inr ?_
      simp only [handlePost]
      rw [if_pos hm]
    · refine .inl ?_
      cases hdr with
      | none =>
        simp only [handlePost]
        rw [if_neg hm]
      | some sid =>
        simp only [handlePost]
        rw [if_neg hm]
        by_cases hsid : sid = ""
        · rw [if_pos hsid]
        · rw [if_neg hsid]
          cases lookupAssoc st.sessions sid <;> rfl

theorem handleDelete_state_cases (st : ServerState) (hdr : Option String) :
    (handleDelete st hdr).1 = st ∨
    ∃ sid, hdr = some sid ∧
      (handleDelete st hdr).1.sessions = eraseAssoc st.sessions sid := by
  cases hdr with
  | none => exact .inl rfl
  | some sid =>
    by_cases hsid : sid = ""
    · refine .inl ?_
      simp only [handleDelete]
      rw [if_pos hsid]
    · cases hl : lookupAssoc st.sessions sid with
      | none =>
        refine .inl ?_
        simp only [handleDelete]
        rw [if_neg hsid, hl]
      | some s =>
        refine .inr ⟨sid, rfl, ?_⟩
        simp only [handleDelete]
        rw [if_neg hsid, hl]

/-- C1 counterexample: the claim quantifies over all POST /mcp
requests carrying a bound token, but an `initialize` request carrying
bound token "tok" (whose dispatcher is transport 0) is routed to the
freshly created transport 1, not to the dispatcher bound to the
token. -/
theorem C1_counterexample_initialize_bypasses_binding :
    lookupAssoc (ServerState.mk [("tok", ⟨0, 0⟩)] 1).sessions "tok" = some ⟨0, 0⟩ ∧
    (handlePost ⟨[("tok", ⟨0, 0⟩)], 1⟩ ⟨some "tok", some ⟨some "initialize", some 1⟩⟩
        "fresh-uuid" 0).2 = .delegated 1 (some "fresh-uuid") ∧
    (SessionRec.mk 0 0).transport ≠ 1 :=
  ⟨rfl, rfl, by decide⟩

/-- C1 (amended): every NON-initialize POST /mcp request carrying a
token bound in the session table is routed to exactly the dispatcher
instance bound to that token, with the table unchanged; and no server
operation (POST with a fresh minted id, DELETE, sweep) ever rebinds a
bound token to a different dispatcher — afterwards the token is either
still bound to the same instance or removed. -/
theorem C1_session_affinity :
    (∀ (st : ServerState) (sid : String) (s : SessionRec) (b : ReqBody)
        (freshId : String) (now : Nat),
      lookupAssoc st.sessions sid = some s → sid ≠ "" →
      b.method ≠ some "initialize" →
      handlePost st ⟨some sid, some b⟩ freshId now = (st, .delegated s.transport none)) ∧
    (∀ (st : ServerState) (op : ServerOp) (sid : String) (s : SessionRec),
      keysNodup st.sessions →
      lookupAssoc st.sessions sid = some s →
      freshFor st op →
      lookupAssoc (applyOp st op).sessions sid = some s ∨
      lookupAssoc (applyOp st op).sessions sid = none) := by
  constructor
  · intro st sid s b freshId now hl hsid hm
    simp only [handlePost]
    rw [if_neg hm, if_neg hsid, hl]
  · intro st op sid s hnd hl hf
    match op with
    | .post req freshId now =>
      have hf' : lookupAssoc st.sessions freshId = none := hf
      have hne : sid ≠ freshId := by
        intro he
        rw [he, hf'] at hl
        exact nomatch hl
      match req with
      | ⟨hdr, body⟩ =>
        rcases handlePost_state_cases st hdr body freshId now with h | h
        · show lookupAssoc (handlePost st ⟨hdr, body⟩ freshId now).1.sessions sid = some s ∨
            lookupAssoc (handlePost st ⟨hdr, body⟩ freshId now).1.sessions sid = none
          rw [h]
          exact .inl hl
        · show lookupAssoc (handlePost st ⟨hdr, body⟩ freshId now).1.sessions sid = some s ∨
            lookupAssoc (handlePost st ⟨hdr, body⟩ freshId now).1.sessions sid = none
          rw [h, lookupAssoc_setAssoc_ne _ _ _ _ hne]
          exact .inl hl
    | .teardown hdr =>
      rcases handleDelete_state_cases st hdr with h | ⟨sid', _, hsess⟩
      · show lookupAssoc (handleDelete st hdr).1.sessions sid = some s ∨
          lookupAssoc (handleDelete st hdr).1.sessions sid = none
        rw [h]
        exact .inl hl
      · show lookupAssoc (handleDelete st hdr).1.sessions sid = some s ∨
          lookupAssoc (handleDelete st hdr).1.sessions sid = none
        rw [hsess]
        by_cases he : sid = sid'
        · subst he
          exact .inr (lookupAssoc_eraseAssoc_self st.sessions sid hnd)
        · rw [lookupAssoc_eraseAssoc_ne _ _ _ he]
          exact .inl hl
    | .sweep => exact .inl hl

/-- C1 witness: a `tools/list` request carrying a bound token is
routed to its transport; an initialize step with a fresh minted token
leaves the old binding intact. -/
theorem C1_session_affinity_witness :
    handlePost ⟨[("tok", ⟨0, 0⟩)], 1⟩ ⟨some "tok", some ⟨some "tools/list", none⟩⟩
        "fresh" 0 = (⟨[("tok", ⟨0, 0⟩)], 1⟩, .delegated 0 none) ∧
    (lookupAssoc (applyOp ⟨[("tok", ⟨0, 0⟩)], 1⟩
        (.post ⟨none, some ⟨some "initialize", none⟩⟩ "tok2" 5)).sessions "tok"
          = some ⟨0, 0⟩ ∨
      lookupAssoc (applyOp ⟨[("tok", ⟨0, 0⟩)], 1⟩
        (.post ⟨none, some ⟨some "initialize", none⟩⟩ "tok2" 5)).sessions "tok" = none) :=
  ⟨C1_session_affinity.1 ⟨[("tok", ⟨0, 0⟩)], 1⟩ "tok" ⟨0, 0⟩ ⟨some "tools/list", none⟩
      "fresh" 0 rfl (by decide) (by decide),
    C1_session_affinity.2 ⟨[("tok", ⟨0, 0⟩)], 1⟩
      (.post ⟨none, some ⟨some "initialize", none⟩⟩ "tok2" 5) "tok" ⟨0, 0⟩
      (by decide) rfl
      (show lookupAssoc (ServerState.mk [("tok", ⟨0, 0⟩)] 1).sessions "tok2" = none
        by decide)⟩

/-- C4 counterexample: the initialize path records no creation or
last-access time — the state produced by an initialize request is
identical whatever the current time is, and the stored entry consists
of the two dispatcher instance ids only, so no "current time" is
recorded with the token as the claim states. -/
theorem C4_counterexample_no_timestamps_recorded :
    handlePost ⟨[], 0⟩ ⟨none, some ⟨some "initialize", some 1⟩⟩ "tok-1" 0
      = handlePost ⟨[], 0⟩ ⟨none, some ⟨some "initialize", some 1⟩⟩ "tok-1" 999999999 ∧
    (handlePost ⟨[], 0⟩ ⟨none, some ⟨some "initialize", some 1⟩⟩ "tok-1" 999999999).1
      = ⟨[("tok-1", ⟨0, 0⟩)], 1⟩ :=
  ⟨rfl, rfl⟩

/-- C4 (amended): a POST /mcp initialize request carrying no session
token mints the fresh server-generated token, constructs a new
dispatcher pair — an instance distinct from every instance bound in
the table — binds it to the token as a new table entry (the table
grows by one and other entries are untouched; no timestamps are
stored), and exposes the token through the response metadata of the
delegated transport. -/
theorem C4_initialize_mints_session :
    ∀ (st : ServerState) (b : ReqBody) (freshId : String) (now : Nat),
      b.method = some "initialize" →
      lookupAssoc st.sessions freshId = none →
      (∀ (k : String) (r : SessionRec), lookupAssoc st.sessions k = some r →
        r.transport < st.nextInstance ∧ r.server < st.nextInstance) →
      lookupAssoc (handlePost st ⟨none, some b⟩ freshId now).1.sessions freshId
        = some ⟨st.nextInstance, st.nextInstance⟩ ∧
      (handlePost st ⟨none, some b⟩ freshId now).2
        = .delegated st.nextInstance (some freshId) ∧
      (∀ (k : String) (r : SessionRec), lookupAssoc st.sessions k = some r →
        r.transport ≠ st.nextInstance ∧ r.server ≠ st.nextInstance) ∧
      (handlePost st ⟨none, some b⟩ freshId now).1.sessions.length
        = st.sessions.length + 1 ∧
      (∀ (sid : String), sid ≠ freshId →
        lookupAssoc (handlePost st ⟨none, some b⟩ freshId now).1.sessions sid
          = lookupAssoc st.sessions sid) := by
  intro st b freshId now hm hfresh hbound
  have hstate : handlePost st ⟨none, some b⟩ freshId now
      = ({ sessions := setAssoc st.sessions freshId ⟨st.nextInstance, st.nextInstance⟩,
           nextInstance := st.nextInstance + 1 },
         .delegated st.nextInstance (some freshId)) := by
    simp only [handlePost]
    rw [if_pos hm]
  refine ⟨?_, ?_, ?_, ?_, ?_⟩
  · rw [hstate]
    exact lookupAssoc_setAssoc_self _ _ _
  · rw [hstate]
  · intro k r hk
    rcases hbound k r hk with ⟨h1, h2⟩
    exact ⟨Nat.ne_of_lt h1, Nat.ne_of_lt h2⟩
  · rw [hstate]
    exact length_setAssoc_of_lookup_none _ _ _ hfresh
  · intro sid hsid
    rw [hstate]
    exact lookupAssoc_setAssoc_ne _ _ _ _ hsid

/-- C4 witness: initializing against a one-session table binds the
fresh token "new" to the new dispatcher instance 1 and announces the
token in the response. -/
theorem C4_initialize_mints_session_witness :
    lookupAssoc (handlePost ⟨[("old", ⟨0, 0⟩)], 1⟩
        ⟨none, some ⟨some "initialize", some 2⟩⟩ "new" 3).1.sessions "new"
      = some ⟨1, 1⟩ ∧
    (handlePost ⟨[("old", ⟨0, 0⟩)], 1⟩ ⟨none, some ⟨some "initialize", some 2⟩⟩
        "new" 3).2 = .delegated 1 (some "new") := by
  have h := C4_initialize_mints_session ⟨[("old", ⟨0, 0⟩)], 1⟩ ⟨some "initialize", some 2⟩
    "new" 3 rfl (by decide) ?hb
  · exact ⟨h.1, h.2.1⟩
  case hb =>
    intro k r hk
    simp only [lookupAssoc] at hk
    by_cases hk0 : ("old" : String) = k
    · rw [if_pos hk0] at hk
      cases Option.some.inj hk
      exact ⟨by decide, by decide⟩
    · rw [if_neg hk0] at hk
      exact nomatch hk

/-- C6: a POST /mcp request whose body is not valid JSON is answered
with HTTP 400 carrying the JSON-RPC parse error (code -32700); the
session table is left exactly as it was (so no session is created or
mutated) and no dispatcher transport is invoked (the response is a
directly written JSON response, not a delegation). -/
theorem C6_invalid_json_rejected_before_any_effect :
    ∀ (st : ServerState) (hdr : Option String) (freshId : String) (now : Nat),
      handlePost st ⟨hdr, none⟩ freshId now = (st, parseErrorResponse) ∧
      parseErrorResponse = .json 400 (.rpcError (-32700) "Parse error" none) ∧
      ∀ (t : Nat) (m : Option String), parseErrorResponse ≠ .delegated t m := by
  intro st hdr freshId now
  refine ⟨rfl, rfl, ?_⟩
  intro t m
  simp [parseErrorResponse]

/-- C3: a non-initialize POST /mcp request whose session token is not
in the session table is answered with the structured session-not-found
error (HTTP 400, JSON-RPC code -32600, message telling the client to
send an initialize request first); the session table is unchanged, and
the error is distinguished from the parse error and from the
dispatcher's invalid-arguments and unknown-operation errors. -/
theorem C3_unknown_session_gets_session_error :
    ∀ (st : ServerState) (sid : String) (b : ReqBody) (freshId : String) (now : Nat),
      b.method ≠ some "initialize" →
      lookupAssoc st.sessions sid = none →
      handlePost st ⟨some sid, some b⟩ freshId now = (st, sessionNotFoundResponse b.id) ∧
      sessionNotFoundResponse b.id
        = .json 400 (.rpcError (-32600) sessionNotFoundMessage (jsTruthyId b.id)) ∧
      (-32600 : Int) ≠ invalidArgumentsCode ∧
      (-32600 : Int) ≠ unknownOperationCode ∧
      sessionNotFoundResponse b.id ≠ parseErrorResponse := by
  intro st sid b freshId now hm hl
  refine ⟨?_, rfl, by decide, by decide, ?_⟩
  · simp only [handlePost]
    rw [if_neg hm]
    by_cases hsid : sid = ""
    · rw [if_pos hsid]
    · rw [if_neg hsid, hl]
  · simp only [sessionNotFoundResponse, parseErrorResponse, ne_eq, HttpResponse.json.injEq,
      RespBody.rpcError.injEq]
    intro h
    exact absurd h.2.1 (by decide)

/-- C3 witness: a concrete `tools/call` request with a never-issued
token against a one-session table. -/
theorem C3_unknown_session_gets_session_error_witness :
    handlePost ⟨[("issued-token", ⟨0, 0⟩)], 1⟩
        ⟨some "never-issued-token", some ⟨some "tools/call", some 7⟩⟩ "fresh" 0
      = (⟨[("issued-token", ⟨0, 0⟩)], 1⟩, sessionNotFoundResponse (some 7)) ∧
    sessionNotFoundResponse (some 7)
      = .json 400 (.rpcError (-32600) sessionNotFoundMessage (jsTruthyId (some 7))) ∧
    (-32600 : Int) ≠ invalidArgumentsCode ∧
    (-32600 : Int) ≠ unknownOperationCode ∧
    sessionNotFoundResponse (some 7) ≠ parseErrorResponse :=
  C3_unknown_session_gets_session_error ⟨[("issued-token", ⟨0, 0⟩)], 1⟩
    "never-issued-token" ⟨some "tools/call", some 7⟩ "fresh" 0 (by decide) (by decide)

/-- C9: every DELETE /mcp request is answered with HTTP 200 and
`{"status":"ok"}`; when the supplied token is bound in the table its
server instance is closed and its entry removed, and when it is not
bound the table is left unchanged — teardown is idempotent and an
unknown token never yields a session error. -/
theorem C9_teardown_idempotent :
    ∀ (st : ServerState) (hdr : Option String),
      (handleDelete st hdr).2.1 = okResponse ∧
      okResponse = .json 200 .statusOk ∧
      (∀ (sid : String) (s : SessionRec), hdr = some sid → sid ≠ "" →
        lookupAssoc st.sessions sid = some s → keysNodup st.sessions →
        lookupAssoc (handleDelete st hdr).1.sessions sid = none ∧
        (handleDelete st hdr).2.2 = some s.server) ∧
      (∀ (sid : String), hdr = some sid → lookupAssoc st.sessions sid = none →
        (handleDelete st hdr).1 = st) ∧
      (hdr = none → (handleDelete st hdr).1 = st) := by
  intro st hdr
  refine ⟨?_, rfl, ?_, ?_, ?_⟩
  · match hdr with
    | none => rfl
    | some sid =>
      simp only [handleDelete]
      by_cases hsid : sid = ""
      · rw [if_pos hsid]
      · rw [if_neg hsid]
        cases hl : lookupAssoc st.sessions sid <;> rfl
  · intro sid s hh hsid hl hnd
    subst hh
    simp only [handleDelete]
    rw [if_neg hsid, hl]
    exact ⟨lookupAssoc_eraseAssoc_self st.sessions sid hnd, rfl⟩
  · intro sid hh hl
    subst hh
    simp only [handleDelete]
    by_cases hsid : sid = ""
    · rw [if_pos hsid]
    · rw [if_neg hsid, hl]
  · intro hh
    subst hh
    rfl

/-- C9 witness: deleting a bound token removes it and closes its
server; deleting an unknown token leaves the table unchanged; both get
the `{"status":"ok"}` response. -/
theorem C9_teardown_idempotent_witness :
    (handleDelete ⟨[("tok-a", ⟨4, 4⟩)], 5⟩ (some "tok-a")).2.1 = okResponse ∧
    lookupAssoc (handleDelete ⟨[("tok-a", ⟨4, 4⟩)], 5⟩ (some "tok-a")).1.sessions "tok-a"
      = none ∧
    (handleDelete ⟨[("tok-a", ⟨4, 4⟩)], 5⟩ (some "tok-a")).2.2 = some 4 ∧
    (handleDelete ⟨[("tok-a", ⟨4, 4⟩)], 5⟩ (some "tok-b")).1 = ⟨[("tok-a", ⟨4, 4⟩)], 5⟩ := by
  refine ⟨(C9_teardown_idempotent ⟨[("tok-a", ⟨4, 4⟩)], 5⟩ (some "tok-a")).1, ?_, ?_, ?_⟩
  · exact ((C9_teardown_idempotent ⟨[("tok-a", ⟨4, 4⟩)], 5⟩ (some "tok-a")).2.2.1
      "tok-a" ⟨4, 4⟩ rfl (by decide) (by decide) (by decide)).1
  · exact ((C9_teardown_idempotent ⟨[("tok-a", ⟨4, 4⟩)], 5⟩ (some "tok-a")).2.2.1
      "tok-a" ⟨4, 4⟩ rfl (by decide) (by decide) (by decide)).2
  · exact (C9_teardown_idempotent ⟨[("tok-a", ⟨4, 4⟩)], 5⟩ (some "tok-b")).2.2.2.1
      "tok-b" rfl (by decide)

/-- C2: the periodic `setInterval` callback of src/server.ts:216-219
is a no-op on the session table — it removes no session, however long
the idle time — and a request carrying a long-idle token is still
routed to its dispatcher rather than receiving a session error.  This
contradicts the claimed idle sweep (the code's own comment announces
"Clean up old sessions periodically" and its body only logs). -/
theorem C2_sweep_is_a_noop :
    (∀ st : ServerState, sweepTick st = st) ∧
    sweepTick ⟨[("stale-token", ⟨0, 0⟩)], 1⟩ = ⟨[("stale-token", ⟨0, 0⟩)], 1⟩ ∧
    (handlePost (sweepTick ⟨[("stale-token", ⟨0, 0⟩)], 1⟩)
        ⟨some "stale-token", some ⟨some "tools/call", some 3⟩⟩ "fresh" 86400000).2
      = .delegated 0 none := by
  exact ⟨fun st => rfl, rfl, rfl⟩

/-- C8: the escrow_create handler is a function of its four inputs
only — it reads neither the clock nor any randomness — so two
invocations with identical arbiter, buyer and seller addresses and
amount return identical results (same deposit address, same contract
ID), across calls and across runs. -/
theorem C8_escrow_create_deterministic :
    ∀ (arbiterAddr buyerAddr sellerAddr amount : String) (w1 w2 : CallWorld),
      escrowCreateHandler arbiterAddr buyerAddr sellerAddr amount w1
        = escrowCreateHandler arbiterAddr buyerAddr sellerAddr amount w2 := by
  intro arbiterAddr buyerAddr sellerAddr amount w1 w2
  rfl

/-- C10: the validate_address handler is total over every outcome of
the delegated `TestNetWallet.watchOnly` call: a successful parse
yields `{valid:true}` with the wallet's cashaddr, tokenaddr and
network, and a thrown error yields `{valid:false}` with the error
message — in both cases a normal result body, never a propagated
exception. -/
theorem C10_validate_address_total :
    ∀ (libOutcome : Except String WalletInfo),
      (∃ w, libOutcome = .ok w ∧
        validateAddressHandler libOutcome = .valid w.cashaddr w.tokenaddr w.network) ∨
      (∃ e, libOutcome = .error e ∧ validateAddressHandler libOutcome = .invalid e) := by
  intro o
  cases o with
  | error e => exact .inr ⟨e, rfl, rfl⟩
  | ok w => exact .inl ⟨w, rfl, rfl⟩

/-- C7: a get_balance call whose `unit` argument is any string outside
the declared enum `{bch, sat, usd}` is rejected by validation with a
structured invalid-arguments error naming the `unit` field, and the
wallet handler is not invoked. -/
theorem C7_get_balance_invalid_unit :
    ∀ (walletId u : String), u ∉ balanceUnits →
      dispatchGetBalance [("walletId", .str walletId), ("unit", .str u)]
        = .invalidArgs "unit" ∧
      ∀ a, GetBalanceDispatch.invalidArgs "unit" ≠ .handlerInvoked a := by
  intro walletId u hu
  constructor
  · show (match (if u ∈ balanceUnits then (Except.ok ⟨walletId, u⟩ : Except ValidationError GetBalanceArgs)
          else .error ⟨"unit"⟩) with
        | .error e => GetBalanceDispatch.invalidArgs e.offendingField
        | .ok a => .handlerInvoked a) = .invalidArgs "unit"
    rw [if_neg hu]
  · intro a h
    exact GetBalanceDispatch.noConfusion h

/-- C7 witness: `unit = "eur"` is rejected naming the `unit` field. -/
theorem C7_get_balance_invalid_unit_witness :
    dispatchGetBalance [("walletId", .str "wif:testnet:example"), ("unit", .str "eur")]
      = .invalidArgs "unit" :=
  (C7_get_balance_invalid_unit "wif:testnet:example" "eur" (by decide)).1

/-- C5: serialize replaces every bigint anywhere in a nested result by
its decimal string (never a native number: no bigint survives and the
replacement is a string leaf), re-parsing that decimal string yields
the identical integer, and everything else — non-bigint leaves, object
keys, and the order and length of arrays and field lists — is
preserved unchanged. -/
theorem C5_serialize_bigint_roundtrip :
    ∀ (v : JValue),
      (∀ (p : List PathElem) (m : Int), getPath (serialize v) p ≠ some (.jbig m)) ∧
      (∀ (p : List PathElem) (n : Int), getPath v p = some (.jbig n) →
        getPath (serialize v) p = some (.jstr (intToDecString n)) ∧
        parseIntDec (intToDecString n) = some n) ∧
      (∀ (p : List PathElem) (x : JValue), getPath v p = some x → isPlainLeaf x = true →
        getPath (serialize v) p = some x) ∧
      (∀ (p : List PathElem) (xs : List JValue), getPath v p = some (.jarr xs) →
        getPath (serialize v) p = some (.jarr (xs.map serialize))) ∧
      (∀ (p : List PathElem) (fs : List (String × JValue)), getPath v p = some (.jobj fs) →
        getPath (serialize v) p
          = some (.jobj (fs.map (fun kv => (kv.1, serialize kv.2))))) := by
  intro v
  refine ⟨?_, ?_, ?_, ?_, ?_⟩
  · intro p m h
    rw [getPath_serialize] at h
    cases hv : getPath v p with
    | none => rw [hv] at h; exact nomatch h
    | some x =>
      rw [hv] at h
      exact serialize_ne_jbig x m (Option.some.inj h)
  · intro p n h
    rw [getPath_serialize, h]
    exact ⟨rfl, parseIntDec_intToDecString n⟩
  · intro p x h hx
    rw [getPath_serialize, h]
    exact congrArg some (serialize_plainLeaf hx)
  · intro p xs h
    rw [getPath_serialize, h]
    exact congrArg some (congrArg JValue.jarr (serializeList_eq_map xs))
  · intro p fs h
    rw [getPath_serialize, h]
    exact congrArg some (congrArg JValue.jobj (serializeFields_eq_map fs))

/-- C5 witness: a bigint nested inside an object and an array becomes
its decimal string and re-parses to the identical integer. -/
theorem C5_serialize_bigint_roundtrip_witness :
    getPath (serialize (.jobj [("utxo", .jarr [.jbig 9007199254740993, .jnum 7])]))
        [.field "utxo", .idx 0]
      = some (.jstr (intToDecString 9007199254740993)) ∧
    parseIntDec (intToDecString 9007199254740993) = some 9007199254740993 :=
  (C5_serialize_bigint_roundtrip
      (.jobj [("utxo", .jarr [.jbig 9007199254740993, .jnum 7])])).2.1
    [.field "utxo", .idx 0] 9007199254740993 rfl

end BchMcp
